import Mathlib

/-!
Verification of the HEP-to-line-protocol converter and batching server
(`hep-proto.js` and the HEP→InfluxDB server module).

The JavaScript source is shallowly embedded: JS strings become `String`
(lists of characters), JS numbers that the program only ever uses as
integers become `Nat`/`Int`, JS objects used as ordered string-keyed maps
become association lists with insert-or-update semantics, and the two
external library calls (`hepjs.decapsulate`, `parsip.getSIP`) are
parameters of the embedded functions: the decoded header respectively the
parsed SIP message are inputs, since those libraries are outside this
repository.  Every call of `Date.now()` / `new Date()` in the source is
made explicit as a `now : Nat` argument (milliseconds).
-/

namespace Hep

/-! ## Escaping helpers (`escapeKey`, `escapeTagValue`, `escapeFieldValue`) -/

/-- The four-character string `\r\n` (backslash, r, backslash, n) that the
JS replacement string `'\\r\\n'` denotes in `value.replace(/\r\n|\n|\r/g, '\\r\\n')`. -/
def escSeq : List Char := ['\\', 'r', '\\', 'n']

/-- Embedding of the regex replacement `/\r\n|\n|\r/g → '\\r\\n'`:
leftmost-longest alternation, so a CRLF pair is consumed as one match. -/
def replNL : List Char → List Char
  | [] => []
  | '\r' :: '\n' :: rest => escSeq ++ replNL rest
  | '\r' :: rest => escSeq ++ replNL rest
  | '\n' :: rest => escSeq ++ replNL rest
  | c :: rest => c :: replNL rest

/-- String version of `replNL`, as used on `payload` and `call_id` in
`extractFields` (`payload.replace(/\r\n|\n|\r/g, '\\r\\n')`). -/
def replNLs (s : String) : String := ⟨replNL s.data⟩

/-- Per-character embedding of the regex replacement `/["\\]/g → '\\$&'`. -/
def escQBc (c : Char) : List Char :=
  if c = '"' ∨ c = '\\' then ['\\', c] else [c]

/-- Embedding of `.replace(/["\\]/g, '\\$&')` (escape quote and backslash). -/
def escQB (l : List Char) : List Char := (l.map escQBc).flatten

/-- Embedding of `escapeFieldValue`: first replace CR/LF/CRLF by the literal
`\r\n`, then escape `"` and `\` with a backslash (in this order, exactly as
the two chained `.replace` calls in the source). -/
def escapeFieldValue (s : String) : String := ⟨escQB (replNL s.data)⟩

/-- Per-character embedding of the regex replacement `/[ ,=]/g → '\\$&'`. -/
def escKeyChar (c : Char) : List Char :=
  if c = ' ' ∨ c = ',' ∨ c = '=' then ['\\', c] else [c]

/-- Embedding of `escapeKey` (keys are always strings in the records built
by this program, so the non-string early return is not modelled). -/
def escapeKey (s : String) : String := ⟨(s.data.map escKeyChar).flatten⟩

/-- Embedding of `escapeTagValue`.  The tags built by `extractTags` are
already stringified in this embedding, so `String(value)` is the identity;
`null`/`undefined` tag values never occur in the built tag sets. -/
def escapeTagValue (s : String) : String := ⟨(s.data.map escKeyChar).flatten⟩

/-! ## Ordered string-keyed objects (JS object literals) -/

/-- A JS object used as an ordered map: keys unique, insertion-ordered. -/
abbrev Obj (V : Type) := List (String × V)

/-- Embedding of JS property assignment `o[k] = v`: update the value in
place when the key exists, otherwise append the new key at the end. -/
def objInsert {V : Type} : Obj V → String → V → Obj V
  | [], k, v => [(k, v)]
  | p :: rest, k, v => if p.1 = k then (k, v) :: rest else p :: objInsert rest k v

/-- Embedding of JS property read `o[k]` (`none` models `undefined`). -/
def objGet {V : Type} : Obj V → String → Option V
  | [], _ => none
  | p :: rest, k => if p.1 = k then some p.2 else objGet rest k

theorem objGet_objInsert_self {V : Type} (l : Obj V) (k : String) (v : V) :
    objGet (objInsert l k v) k = some v := by
  induction l with
  | nil => simp [objInsert, objGet]
  | cons p rest ih =>
    by_cases hp : p.1 = k
    · simp [objInsert, hp, objGet]
    · simp [objInsert, hp, objGet, ih]

theorem objGet_objInsert_ne {V : Type} (l : Obj V) {k k' : String} (v : V)
    (h : k' ≠ k) : objGet (objInsert l k' v) k = objGet l k := by
  induction l with
  | nil => simp [objInsert, objGet, h]
  | cons p rest ih =>
    by_cases hp : p.1 = k'
    · simp [objInsert, hp, objGet, h, Ne.symm h]
    · by_cases hk : p.1 = k
      · simp [objInsert, hp, objGet, hk, Ne.symm h]
      · simp [objInsert, hp, objGet, hk, ih]

theorem objGet_objInsert_isSome {V : Type} (l : Obj V) (k k' : String) (v : V)
    (h : (objGet l k).isSome) : (objGet (objInsert l k' v) k).isSome := by
  by_cases hk : k' = k
  · subst hk; simp [objGet_objInsert_self]
  · rwa [objGet_objInsert_ne _ _ hk]

/-! ## Behaviour of the newline replacement -/

theorem replNL_nil : replNL [] = [] := rfl

theorem replNL_crlf (rest : List Char) :
    replNL ('\r' :: '\n' :: rest) = escSeq ++ replNL rest := rfl

theorem replNL_lf (rest : List Char) :
    replNL ('\n' :: rest) = escSeq ++ replNL rest := rfl

theorem replNL_cr (rest : List Char) (h : rest.head? ≠ some '\n') :
    replNL ('\r' :: rest) = escSeq ++ replNL rest := by
  match rest with
  | [] => rfl
  | c :: r =>
    have hc : c ≠ '\n' := by
      intro he; exact h (by simp [he])
    rw [replNL.eq_def]
    simp [hc]

theorem replNL_other (c : Char) (rest : List Char) (h1 : c ≠ '\r') (h2 : c ≠ '\n') :
    replNL (c :: rest) = c :: replNL rest := by
  rw [replNL.eq_def]
  simp [h1, h2]

theorem replNL_append (u w : List Char) (h : u.getLast? ≠ some '\r') :
    replNL (u ++ w) = replNL u ++ replNL w := by
  match u with
  | [] => simp [replNL_nil]
  | [c] =>
    have hc : c ≠ '\r' := by
      intro he; exact h (by simp [he])
    by_cases hn : c = '\n'
    · subst hn
      simp [replNL_lf, replNL_nil]
    · rw [List.singleton_append, replNL_other c w hc hn,
        replNL_other c [] hc hn, replNL_nil]
      rfl
  | c1 :: c2 :: rest =>
    have h' : (c2 :: rest).getLast? ≠ some '\r' := by
      rwa [List.getLast?_cons_cons] at h
    have ih := replNL_append (c2 :: rest) w h'
    simp only [List.cons_append] at ih ⊢
    by_cases h1 : c1 = '\r'
    · subst h1
      by_cases h2 : c2 = '\n'
      · subst h2
        have hrest : rest.getLast? ≠ some '\r' := by
          match rest with
          | [] => simp
          | d :: ds => rwa [List.getLast?_cons_cons] at h'
        have ihr := replNL_append rest w hrest
        rw [replNL_crlf, replNL_crlf, ihr, List.append_assoc]
      · have hh : (c2 :: (rest ++ w)).head? ≠ some '\n' := by simp [h2]
        have hh2 : (c2 :: rest).head? ≠ some '\n' := by simp [h2]
        rw [replNL_cr _ hh, replNL_cr _ hh2, ih, List.append_assoc]
    · by_cases h2 : c1 = '\n'
      · subst h2
        rw [replNL_lf, replNL_lf, ih, List.append_assoc]
      · rw [replNL_other _ _ h1 h2, replNL_other _ _ h1 h2, ih]
        rfl

theorem escQB_append (a b : List Char) : escQB (a ++ b) = escQB a ++ escQB b := by
  simp [escQB]

theorem escQB_escSeq : escQB escSeq = ['\\', '\\', 'r', '\\', '\\', 'n'] := by decide

/-! ## Data model -/

/-- A typed line-protocol field value, mirroring the `typeof` dispatch in
`createLineProtocol`: JS string, number (the program only ever stores
integers: `getTime()`, `parseInt` results and a string length), boolean,
`null`/`undefined`, or any other object (carried as its `JSON.stringify`
rendering, which the encoder then treats as a string). -/
inductive FieldValue
  | str (s : String)
  | num (n : Int)
  | boolean (b : Bool)
  | null
  | json (s : String)
  deriving DecidableEq

/-- The decoded HEP capture header (`decoded.rcinfo` from `hepjs.decapsulate`).
Numeric fields use `0` and string fields use `""` for the JS-falsy
absent/zero case, so the `if (header.x)` truthiness tests of the source
become `≠ 0` / `≠ ""` tests. -/
structure Header where
  captureId : Nat := 0
  capturePass : String := ""
  srcIp : String := ""
  dstIp : String := ""
  srcPort : Nat := 0
  dstPort : Nat := 0
  ipProtocolId : Nat := 0
  ipProtocolFamily : Nat := 0
  protocolType : Nat := 0
  vlan : Nat := 0
  vendor_module : String := ""
  timeSeconds : Nat := 0
  timeUseconds : Nat := 0
  payloadType : Nat := 0
  deriving DecidableEq

/-- A parsed SIP header value as produced by `parsip.getSIP`: either a
single string or an array of strings. -/
inductive SipHVal
  | str (s : String)
  | arr (l : List String)
  deriving DecidableEq

/-- Result of `parsip.getSIP` as consumed by `extractFields`: the header
object, the request method (`""` for the JS-falsy absent case) and the
response status (already parsed to its numeric value; `none` for absent). -/
structure SipData where
  headers : Obj SipHVal := []
  method : String := ""
  status : Option Nat := none
  deriving DecidableEq

/-- Embedding of `Array.isArray(value) ? value[0] : value`
(`none` models `undefined` for an empty array). -/
def firstVal : SipHVal → Option String
  | .str s => some s
  | .arr l => l.head?

/-! ## `getHepTimestamp` -/

/-- Embedding of `getHepTimestamp`:
`new Date((rcinfo.timeSeconds * 1000) + (((100000 + rcinfo.timeUseconds) / 1000) - 100))`,
with `new Date()` (the current clock) for a falsy `timeSeconds`.
`Date` truncates its millisecond argument to an integer, which for
`timeSeconds > 0` and `timeUseconds < 10^6` is exactly this natural-number
expression with flooring division (the IEEE-754 rounding error of the JS
float expression is far below the 1/1000 distance of the exact value to
the next integer, so the truncated values agree). -/
def getHepTimestamp (now : Nat) (h : Header) : Nat :=
  if h.timeSeconds = 0 then now
  else h.timeSeconds * 1000 + ((100000 + h.timeUseconds) / 1000 - 100)

/-! ## `extractTags` -/

/-- Embedding of `extractTags`: each tag is included only when the header
field is JS-truthy, in the source's assignment order; numeric values are
stringified (`escapeTagValue` applies `String(value)`, and `vlan` is
stringified explicitly via `.toString()`). -/
def extractTags (h : Header) : Obj String :=
  (if h.captureId ≠ 0 then [("capture_id", toString h.captureId)] else []) ++
  (if h.capturePass ≠ "" then [("capture_pass", h.capturePass)] else []) ++
  (if h.srcIp ≠ "" then [("src_ip", h.srcIp)] else []) ++
  (if h.dstIp ≠ "" then [("dst_ip", h.dstIp)] else []) ++
  (if h.srcPort ≠ 0 then [("src_port", toString h.srcPort)] else []) ++
  (if h.dstPort ≠ 0 then [("dst_port", toString h.dstPort)] else []) ++
  (if h.ipProtocolId ≠ 0 then [("ip_protocol_id", toString h.ipProtocolId)] else []) ++
  (if h.ipProtocolFamily ≠ 0 then [("ip_protocol_family", toString h.ipProtocolFamily)] else []) ++
  (if h.protocolType ≠ 0 then [("protocol_type", toString h.protocolType)] else []) ++
  (if h.vlan ≠ 0 then [("vlan", toString h.vlan)] else []) ++
  (if h.vendor_module ≠ "" then [("vendor_module", h.vendor_module)] else [])

/-! ## `extractFields` -/

/-- Embedding of `key.toLowerCase()` (parsed SIP header names are ASCII,
where `toLowerCase` lower-cases each character). -/
def jsToLower (s : String) : String := ⟨s.data.map Char.toLower⟩

/-- One iteration of the `for (const [key, value] of Object.entries(sipData.headers))`
loop: take the first value of an array-valued header, escape CR/LF when it
is a string, and store it under `sip_` plus the lower-cased header name. -/
def sipHeaderField (fields : Obj FieldValue) (kv : String × SipHVal) : Obj FieldValue :=
  objInsert fields ("sip_" ++ jsToLower kv.1)
    (match firstVal kv.2 with
     | some s => .str (replNLs s)
     | none => .null)

/-- The `call_id` value stored by the dedicated `Call-ID` block: the first
value of the header with CR/LF escaped (`null` models an `undefined`
first value of an empty array). -/
def callIdVal (hv : SipHVal) : FieldValue :=
  match firstVal hv with
  | some s => .str (replNLs s)
  | none => .null

/-- Embedding of `if (sipData.method) fields.sip_method = sipData.method`. -/
def sipMethodStep (sd : SipData) (f : Obj FieldValue) : Obj FieldValue :=
  if sd.method ≠ "" then objInsert f "sip_method" (.str sd.method) else f

/-- Embedding of `if (sipData.status) fields.sip_status = parseInt(sipData.status, 10)`. -/
def sipStatusStep (sd : SipData) (f : Obj FieldValue) : Obj FieldValue :=
  match sd.status with
  | some n => objInsert f "sip_status" (.num n)
  | none => f

/-- JS truthiness of a SIP header value, as tested by
`if (sipData.headers['Call-ID'])`: the empty string is falsy, any array
(an object, even when empty) is truthy. -/
def sipHValTruthy : SipHVal → Bool
  | .str s => s != ""
  | .arr _ => true

/-- Embedding of the dedicated `Call-ID` block
(`if (sipData.headers && sipData.headers['Call-ID']) ... fields.call_id = callId`):
the assignment only runs when the `Call-ID` property is present and
JS-truthy. -/
def sipCallIdStep (sd : SipData) (f : Obj FieldValue) : Obj FieldValue :=
  match objGet sd.headers "Call-ID" with
  | some hv => if sipHValTruthy hv then objInsert f "call_id" (callIdVal hv) else f
  | none => f

/-- Embedding of the SIP part of `extractFields` (the body of the
`if (sipData)` block): the header loop, then `sip_method`, `sip_status`
and the dedicated `call_id` field, in the source's order. -/
def sipFields (sd : SipData) (fields : Obj FieldValue) : Obj FieldValue :=
  sipCallIdStep sd (sipStatusStep sd (sipMethodStep sd (sd.headers.foldl sipHeaderField fields)))

/-- Embedding of the `if (type === 1 && payload)` block of `extractFields`
(the external SIP parser is the `getSIP` parameter; `none` covers both a
`null` result and a thrown exception, which the surrounding
`try { ... } catch` swallows before any field is written). -/
def sipStep (getSIP : String → Option SipData) (payload : String) (type : Nat)
    (f : Obj FieldValue) : Obj FieldValue :=
  if type = 1 ∧ payload ≠ "" then
    match getSIP payload with
    | some sd => sipFields sd f
    | none => f
  else f

/-- Embedding of the `if (payload)` block of `extractFields`
(escaped payload plus `payload_size`, the length of the original payload). -/
def payloadStep (payload : String) (f : Obj FieldValue) : Obj FieldValue :=
  if payload ≠ "" then
    objInsert (objInsert f "payload" (.str (replNLs payload)))
      "payload_size" (.num payload.length)
  else f

/-- Embedding of the `if (header.timeSeconds)` block of `extractFields`. -/
def timeStep (h : Header) (f : Obj FieldValue) : Obj FieldValue :=
  if h.timeSeconds ≠ 0 then
    objInsert (objInsert f "time_sec" (.num h.timeSeconds))
      "time_usec" (.num h.timeUseconds)
  else f

/-- Embedding of `extractFields`: `create_date` first, then the SIP block,
the payload block and the timestamp-component block, exactly in the
mutation order of the source.  `now` is the clock read by the inner
`getHepTimestamp` call. -/
def extractFields (getSIP : String → Option SipData) (now : Nat)
    (h : Header) (payload : String) (type : Nat) : Obj FieldValue :=
  timeStep h (payloadStep payload (sipStep getSIP payload type
    (objInsert ([] : Obj FieldValue) "create_date" (.num (getHepTimestamp now h)))))

/-! ## `createLineProtocol` and `convertPacket` -/

/-- The `hepData` object assembled by `convertPacket`: decoded header,
derived millisecond timestamp, raw payload and HEP payload type. -/
structure HepData where
  protocol_header : Header
  create_date : Nat
  raw : String
  type : Nat
  deriving DecidableEq

/-- The tag set actually emitted: the extracted tags, or the synthetic
`source=hep` tag when extraction yields none
(`if (Object.keys(tags).length === 0) tags.source = 'hep'`). -/
def effectiveTags (h : Header) : Obj String :=
  let tags := extractTags h
  if tags.isEmpty then [("source", "hep")] else tags

/-- The comma-joined tag set of the encoded line. -/
def tagString (h : Header) : String :=
  String.intercalate ","
    ((effectiveTags h).map fun kv => escapeKey kv.1 ++ "=" ++ escapeTagValue kv.2)

/-- Rendering of one field entry, mirroring the `typeof` dispatch of the
source: strings are quoted and escaped, integers get the `i` suffix,
booleans are bare literals, `null`/`undefined` entries are dropped, other
objects are JSON-stringified and treated as strings. -/
def fieldEntry (k : String) (v : FieldValue) : Option String :=
  match v with
  | .str s => some (escapeKey k ++ "=\"" ++ escapeFieldValue s ++ "\"")
  | .num n => some (escapeKey k ++ "=" ++ toString n ++ "i")
  | .boolean b => some (escapeKey k ++ "=" ++ (if b then "true" else "false"))
  | .null => none
  | .json s => some (escapeKey k ++ "=\"" ++ escapeFieldValue s ++ "\"")

/-- The comma-joined field set of the encoded line. -/
def fieldString (getSIP : String → Option SipData) (now : Nat)
    (h : Header) (payload : String) (type : Nat) : String :=
  String.intercalate ","
    ((extractFields getSIP now h payload type).filterMap fun kv => fieldEntry kv.1 kv.2)

/-- Embedding of `createLineProtocol`.  The nanosecond timestamp is
`Math.floor(create_date.getTime() * 1000000)`, i.e. the millisecond value
times one million (exact integer arithmetic in this embedding).  `now` is
the clock read by the `getHepTimestamp` call inside `extractFields`. -/
def createLineProtocol (getSIP : String → Option SipData) (now : Nat)
    (hd : HepData) : String :=
  let measurement := "hep_" ++ toString hd.type
  let timestamp := hd.create_date * 1000000
  measurement ++ "," ++ tagString hd.protocol_header ++ " " ++
    fieldString getSIP now hd.protocol_header hd.raw hd.type ++ " " ++
    toString timestamp

/-- Embedding of `convertPacket` after a successful `hepjs.decapsulate`:
the decoded header and payload are the input pair; `now1` is the clock at
the `getHepTimestamp` call that fills `hepData.create_date`, `now2` the
clock at the later call inside `extractFields`. -/
def convertPacket (getSIP : String → Option SipData) (now1 now2 : Nat)
    (decoded : Header × String) : String :=
  let h := decoded.1
  createLineProtocol getSIP now2
    { protocol_header := h
      create_date := getHepTimestamp now1 h
      raw := decoded.2
      type := h.payloadType }

/-! ## The batching server (`HepToInfluxDBServer`) -/

/-- The configuration fields relevant to buffering
(defaults `batchSize = 1000`, `maxBufferSize = 10000`). -/
structure Config where
  batchSize : Nat := 1000
  maxBufferSize : Nat := 10000
  deriving DecidableEq

/-- The mutable server state: the shared line buffer, the statistics
counters and, for specification purposes, the ordered list of payloads
handed to the sink by `flush` (each one a newline-join of a batch). -/
structure ServerState where
  buffer : List String := []
  packetsReceived : Nat := 0
  packetsConverted : Nat := 0
  conversionErrors : Nat := 0
  batchesSent : Nat := 0
  flushed : List String := []
  deriving DecidableEq

/-- The state of a freshly constructed server. -/
def initialState : ServerState := {}

/-- Embedding of `flush`: an empty buffer returns immediately; otherwise
the buffer contents are joined with newlines, the buffer is cleared, and
the joined payload goes to the sink (send success assumed, so
`batchesSent` is incremented). -/
def flushState (st : ServerState) : ServerState :=
  if st.buffer.isEmpty then st
  else
    { st with
      buffer := []
      flushed := st.flushed ++ [String.intercalate "\n" st.buffer]
      batchesSent := st.batchesSent + 1 }

/-- Outcome of `converter.convertPacket(data)` inside `handleData`:
either a thrown error (malformed packet) or the returned line (possibly
the empty string, which the source treats as falsy and discards). -/
inductive ConvResult
  | err
  | ok (line : String)
  deriving DecidableEq

/-- Embedding of `handleData`: count the packet; on a conversion error
count it and return; on a truthy line count the conversion, append to the
buffer and flush when the buffer has reached `batchSize`. -/
def handleData (cfg : Config) (st : ServerState) (res : ConvResult) : ServerState :=
  match res with
  | .err =>
    { st with
      packetsReceived := st.packetsReceived + 1
      conversionErrors := st.conversionErrors + 1 }
  | .ok line =>
    if line ≠ "" then
      let st' :=
        { st with
          packetsReceived := st.packetsReceived + 1
          packetsConverted := st.packetsConverted + 1
          buffer := st.buffer ++ [line] }
      if cfg.batchSize ≤ st'.buffer.length then flushState st' else st'
    else { st with packetsReceived := st.packetsReceived + 1 }

/-- Feeding a sequence of successfully converted lines through `handleData`. -/
def processLines (cfg : Config) (st : ServerState) (ls : List String) : ServerState :=
  ls.foldl (fun s l => handleData cfg s (.ok l)) st

/-! ## Lookup lemmas about the built field set -/

theorem sipKey_ne (x : String) {k : String} (hk : k.data.take 4 ≠ ['s', 'i', 'p', '_']) :
    ("sip_" ++ x) ≠ k := by
  intro he
  apply hk
  rw [← he, String.data_append]
  rfl

theorem objGet_foldSip (hdrs : Obj SipHVal) (f : Obj FieldValue) {k : String}
    (hk : ∀ x : String, ("sip_" ++ x) ≠ k) :
    objGet (hdrs.foldl sipHeaderField f) k = objGet f k := by
  induction hdrs generalizing f with
  | nil => rfl
  | cons kv rest ih =>
    rw [List.foldl_cons, ih]
    exact objGet_objInsert_ne _ _ (hk _)

theorem isSome_foldSip (hdrs : Obj SipHVal) (f : Obj FieldValue) (k : String)
    (h : (objGet f k).isSome) :
    (objGet (hdrs.foldl sipHeaderField f) k).isSome := by
  induction hdrs generalizing f with
  | nil => exact h
  | cons kv rest ih =>
    exact ih _ (objGet_objInsert_isSome _ _ _ _ h)

theorem objGet_mem {V : Type} (l : Obj V) (k : String) (v : V)
    (h : objGet l k = some v) : (k, v) ∈ l := by
  induction l with
  | nil => cases h
  | cons p rest ih =>
    by_cases hp : p.1 = k
    · rw [objGet, if_pos hp] at h
      have hv : p.2 = v := by injection h
      have hpe : p = (k, v) := by
        calc p = (p.1, p.2) := rfl
          _ = (k, v) := by rw [hp, hv]
      rw [hpe]
      exact List.mem_cons_self _ _
    · rw [objGet, if_neg hp] at h
      exact List.mem_cons_of_mem _ (ih h)

theorem foldSip_mem_isSome (hdrs : Obj SipHVal) (f : Obj FieldValue)
    (K : String) (hv : SipHVal) (hmem : (K, hv) ∈ hdrs) :
    (objGet (hdrs.foldl sipHeaderField f) ("sip_" ++ jsToLower K)).isSome := by
  induction hdrs generalizing f with
  | nil => cases hmem
  | cons kv rest ih =>
    rw [List.foldl_cons]
    rcases List.mem_cons.mp hmem with he | hm
    · apply isSome_foldSip
      rw [← he]
      simp [sipHeaderField, objGet_objInsert_self]
    · exact ih _ hm

theorem objGet_sipMethodStep_ne (sd : SipData) (f : Obj FieldValue) {k : String}
    (h : ("sip_method" : String) ≠ k) :
    objGet (sipMethodStep sd f) k = objGet f k := by
  unfold sipMethodStep
  split
  · exact objGet_objInsert_ne _ _ h
  · rfl

theorem objGet_sipStatusStep_ne (sd : SipData) (f : Obj FieldValue) {k : String}
    (h : ("sip_status" : String) ≠ k) :
    objGet (sipStatusStep sd f) k = objGet f k := by
  unfold sipStatusStep
  split
  · exact objGet_objInsert_ne _ _ h
  · rfl

theorem objGet_sipCallIdStep_ne (sd : SipData) (f : Obj FieldValue) {k : String}
    (h : ("call_id" : String) ≠ k) :
    objGet (sipCallIdStep sd f) k = objGet f k := by
  unfold sipCallIdStep
  split
  · split
    · exact objGet_objInsert_ne _ _ h
    · rfl
  · rfl

theorem objGet_sipFields_ne (sd : SipData) (f : Obj FieldValue) {k : String}
    (hk : ∀ x : String, ("sip_" ++ x) ≠ k) (hc : ("call_id" : String) ≠ k) :
    objGet (sipFields sd f) k = objGet f k := by
  have hmeth : ("sip_method" : String) ≠ k := by
    have := hk "method"
    rwa [show ("sip_" ++ "method" : String) = "sip_method" from by decide] at this
  have hstat : ("sip_status" : String) ≠ k := by
    have := hk "status"
    rwa [show ("sip_" ++ "status" : String) = "sip_status" from by decide] at this
  unfold sipFields
  rw [objGet_sipCallIdStep_ne _ _ hc, objGet_sipStatusStep_ne _ _ hstat,
    objGet_sipMethodStep_ne _ _ hmeth]
  exact objGet_foldSip _ _ hk

theorem objGet_sipStep_ne (getSIP : String → Option SipData) (payload : String)
    (type : Nat) (f : Obj FieldValue) {k : String}
    (hk : ∀ x : String, ("sip_" ++ x) ≠ k) (hc : ("call_id" : String) ≠ k) :
    objGet (sipStep getSIP payload type f) k = objGet f k := by
  unfold sipStep
  split
  · split
    · exact objGet_sipFields_ne _ _ hk hc
    · rfl
  · rfl

theorem objGet_payloadStep_ne (payload : String) (f : Obj FieldValue) {k : String}
    (h1 : ("payload" : String) ≠ k) (h2 : ("payload_size" : String) ≠ k) :
    objGet (payloadStep payload f) k = objGet f k := by
  unfold payloadStep
  split
  · rw [objGet_objInsert_ne _ _ h2, objGet_objInsert_ne _ _ h1]
  · rfl

theorem objGet_timeStep_ne (h : Header) (f : Obj FieldValue) {k : String}
    (h1 : ("time_sec" : String) ≠ k) (h2 : ("time_usec" : String) ≠ k) :
    objGet (timeStep h f) k = objGet f k := by
  unfold timeStep
  split
  · rw [objGet_objInsert_ne _ _ h2, objGet_objInsert_ne _ _ h1]
  · rfl

theorem objGet_sipMethodStep_isSome (sd : SipData) (f : Obj FieldValue) (k : String)
    (hs : (objGet f k).isSome) : (objGet (sipMethodStep sd f) k).isSome := by
  unfold sipMethodStep
  split
  · exact objGet_objInsert_isSome _ _ _ _ hs
  · exact hs

theorem objGet_sipStatusStep_isSome (sd : SipData) (f : Obj FieldValue) (k : String)
    (hs : (objGet f k).isSome) : (objGet (sipStatusStep sd f) k).isSome := by
  unfold sipStatusStep
  split
  · exact objGet_objInsert_isSome _ _ _ _ hs
  · exact hs

theorem objGet_sipCallIdStep_isSome (sd : SipData) (f : Obj FieldValue) (k : String)
    (hs : (objGet f k).isSome) : (objGet (sipCallIdStep sd f) k).isSome := by
  unfold sipCallIdStep
  split
  · split
    · exact objGet_objInsert_isSome _ _ _ _ hs
    · exact hs
  · exact hs

theorem objGet_payloadStep_isSome (payload : String) (f : Obj FieldValue) (k : String)
    (hs : (objGet f k).isSome) : (objGet (payloadStep payload f) k).isSome := by
  unfold payloadStep
  split
  · exact objGet_objInsert_isSome _ _ _ _ (objGet_objInsert_isSome _ _ _ _ hs)
  · exact hs

theorem objGet_timeStep_isSome (h : Header) (f : Obj FieldValue) (k : String)
    (hs : (objGet f k).isSome) : (objGet (timeStep h f) k).isSome := by
  unfold timeStep
  split
  · exact objGet_objInsert_isSome _ _ _ _ (objGet_objInsert_isSome _ _ _ _ hs)
  · exact hs

/-- The `create_date` field is always present with the `getHepTimestamp`
value: every later insertion of `extractFields` uses a different key. -/
theorem objGet_extractFields_createDate (getSIP : String → Option SipData)
    (now : Nat) (h : Header) (payload : String) (type : Nat) :
    objGet (extractFields getSIP now h payload type) "create_date" =
      some (.num (getHepTimestamp now h)) := by
  unfold extractFields
  rw [objGet_timeStep_ne _ _ (by decide) (by decide),
    objGet_payloadStep_ne _ _ (by decide) (by decide),
    objGet_sipStep_ne _ _ _ _ (fun x => sipKey_ne x (by decide)) (by decide)]
  exact objGet_objInsert_self _ _ _

/-! ## Claim theorems -/

/-- C8: a malformed packet (conversion throws) increments
`conversionErrors` by exactly one, leaves `packetsConverted`, the buffer
and the flushed batches unchanged, and the handler returns normally
(the embedding is a total function; only `packetsReceived` also moves). -/
theorem claim8_error_isolation (cfg : Config) (st : ServerState) :
    (handleData cfg st .err).conversionErrors = st.conversionErrors + 1 ∧
    (handleData cfg st .err).packetsConverted = st.packetsConverted ∧
    (handleData cfg st .err).buffer = st.buffer ∧
    (handleData cfg st .err).flushed = st.flushed ∧
    (handleData cfg st .err).packetsReceived = st.packetsReceived + 1 :=
  ⟨rfl, rfl, rfl, rfl, rfl⟩

/-- C6: every encoded line is the measurement `hep_<payloadType>`, a comma,
the comma-joined tag set, a space, the comma-joined field set, a space and
the nanosecond timestamp; and the emitted tag set is never empty — when
extraction yields no tags the synthetic `source=hep` tag is inserted. -/
theorem claim6_line_format (getSIP : String → Option SipData) (now : Nat)
    (hd : HepData) :
    createLineProtocol getSIP now hd =
      "hep_" ++ toString hd.type ++ "," ++ tagString hd.protocol_header ++ " " ++
      fieldString getSIP now hd.protocol_header hd.raw hd.type ++ " " ++
      toString (hd.create_date * 1000000)
    ∧ effectiveTags hd.protocol_header ≠ []
    ∧ (extractTags hd.protocol_header = [] →
        effectiveTags hd.protocol_header = [("source", "hep")]) := by
  refine ⟨rfl, ?_, ?_⟩
  · by_cases hE : (extractTags hd.protocol_header).isEmpty
    · simp [effectiveTags, hE]
    · have heq : effectiveTags hd.protocol_header = extractTags hd.protocol_header := by
        simp [effectiveTags, hE]
      rw [heq]
      intro he
      exact hE (by simp [he])
  · intro he
    simp [effectiveTags, he]

/-- Witness for C6 at a concrete record with an empty extracted tag set. -/
theorem claim6_line_format_witness :
    createLineProtocol (fun _ => none) 0 ⟨({} : Header), 0, "", 0⟩ =
      "hep_" ++ toString (0 : Nat) ++ "," ++ tagString ({} : Header) ++ " " ++
      fieldString (fun _ => none) 0 ({} : Header) "" 0 ++ " " ++
      toString ((0 : Nat) * 1000000)
    ∧ effectiveTags ({} : Header) ≠ []
    ∧ (extractTags ({} : Header) = [] →
        effectiveTags ({} : Header) = [("source", "hep")]) :=
  claim6_line_format (fun _ => none) 0 ⟨({} : Header), 0, "", 0⟩

/-- C7 counterexample: a decoded header with `timeSeconds = 0` (JS-falsy)
yields a field set without `time_sec`, contradicting the claim that
`time_sec` is present regardless of the header's contents
(`create_date` is still present, filled from the clock). -/
theorem claim7_counterexample :
    objGet (extractFields (fun _ => none) 5 ({} : Header) "" 0) "time_sec" = none ∧
    objGet (extractFields (fun _ => none) 5 ({} : Header) "" 0) "create_date" =
      some (.num 5) := by
  constructor <;> decide

/-- C7 amended: every built field set contains `create_date`; it contains
`time_sec` and `time_usec` (taken from the header) exactly when the
header's `timeSeconds` is non-zero (truthy), and omits both when
`timeSeconds` is zero. -/
theorem claim7_amended (getSIP : String → Option SipData) (now : Nat)
    (h : Header) (payload : String) (type : Nat) :
    objGet (extractFields getSIP now h payload type) "create_date" =
      some (.num (getHepTimestamp now h))
    ∧ (h.timeSeconds ≠ 0 →
        objGet (extractFields getSIP now h payload type) "time_sec" =
          some (.num h.timeSeconds) ∧
        objGet (extractFields getSIP now h payload type) "time_usec" =
          some (.num h.timeUseconds))
    ∧ (h.timeSeconds = 0 →
        objGet (extractFields getSIP now h payload type) "time_sec" = none ∧
        objGet (extractFields getSIP now h payload type) "time_usec" = none) := by
  refine ⟨objGet_extractFields_createDate _ _ _ _ _, fun ht => ⟨?_, ?_⟩, fun ht => ⟨?_, ?_⟩⟩
  · unfold extractFields timeStep
    rw [if_pos ht, objGet_objInsert_ne _ _ (by decide)]
    exact objGet_objInsert_self _ _ _
  · unfold extractFields timeStep
    rw [if_pos ht]
    exact objGet_objInsert_self _ _ _
  · unfold extractFields timeStep
    rw [if_neg (by simp [ht]),
      objGet_payloadStep_ne _ _ (by decide) (by decide),
      objGet_sipStep_ne _ _ _ _ (fun x => sipKey_ne x (by decide)) (by decide),
      objGet_objInsert_ne _ _ (by decide)]
    rfl
  · unfold extractFields timeStep
    rw [if_neg (by simp [ht]),
      objGet_payloadStep_ne _ _ (by decide) (by decide),
      objGet_sipStep_ne _ _ _ _ (fun x => sipKey_ne x (by decide)) (by decide),
      objGet_objInsert_ne _ _ (by decide)]
    rfl

/-- Witness for C7 amended at a concrete header with nonzero and zero
`timeSeconds` fields respectively. -/
theorem claim7_amended_witness :
    objGet (extractFields (fun _ => none) 7 ({ timeSeconds := 3, timeUseconds := 4 } : Header) "" 0)
        "create_date" =
      some (.num (getHepTimestamp 7 ({ timeSeconds := 3, timeUseconds := 4 } : Header)))
    ∧ (({ timeSeconds := 3, timeUseconds := 4 } : Header).timeSeconds ≠ 0 →
        objGet (extractFields (fun _ => none) 7 ({ timeSeconds := 3, timeUseconds := 4 } : Header) "" 0)
            "time_sec" = some (.num 3) ∧
        objGet (extractFields (fun _ => none) 7 ({ timeSeconds := 3, timeUseconds := 4 } : Header) "" 0)
            "time_usec" = some (.num 4))
    ∧ (({ timeSeconds := 3, timeUseconds := 4 } : Header).timeSeconds = 0 →
        objGet (extractFields (fun _ => none) 7 ({ timeSeconds := 3, timeUseconds := 4 } : Header) "" 0)
            "time_sec" = none ∧
        objGet (extractFields (fun _ => none) 7 ({ timeSeconds := 3, timeUseconds := 4 } : Header) "" 0)
            "time_usec" = none) :=
  claim7_amended (fun _ => none) 7 { timeSeconds := 3, timeUseconds := 4 } "" 0

/-- C1: for a decoded header with seconds `S > 0` and microseconds
`U < 1000000`, the builder's `create_date` field equals
`S*1000 + ((100000+U)/1000 - 100)` (flooring division), and the timestamp
emitted at the end of the encoded line is exactly that millisecond value
multiplied by 1,000,000. -/
theorem claim1_timestamp (getSIP : String → Option SipData) (now1 now2 : Nat)
    (h : Header) (payload : String)
    (hS : 0 < h.timeSeconds) (hU : h.timeUseconds < 1000000) :
    objGet (extractFields getSIP now2 h payload h.payloadType) "create_date" =
      some (.num ((h.timeSeconds * 1000 + ((100000 + h.timeUseconds) / 1000 - 100) : Nat)))
    ∧ convertPacket getSIP now1 now2 (h, payload) =
        "hep_" ++ toString h.payloadType ++ "," ++ tagString h ++ " " ++
        fieldString getSIP now2 h payload h.payloadType ++ " " ++
        toString (((h.timeSeconds * 1000 + ((100000 + h.timeUseconds) / 1000 - 100) : Nat)) * 1000000) := by
  have hne : h.timeSeconds ≠ 0 := Nat.pos_iff_ne_zero.mp hS
  have hms : ∀ now : Nat, getHepTimestamp now h =
      h.timeSeconds * 1000 + ((100000 + h.timeUseconds) / 1000 - 100) := by
    intro now
    unfold getHepTimestamp
    rw [if_neg hne]
  constructor
  · rw [objGet_extractFields_createDate, hms]
  · simp only [convertPacket, createLineProtocol, hms]

/-- Witness for C1 at a concrete header. -/
theorem claim1_timestamp_witness :
    (0 < ({ timeSeconds := 1700000000, timeUseconds := 123456, payloadType := 5 } : Header).timeSeconds)
    ∧ (({ timeSeconds := 1700000000, timeUseconds := 123456, payloadType := 5 } : Header).timeUseconds < 1000000)
    ∧ (objGet (extractFields (fun _ => none) 0
          ({ timeSeconds := 1700000000, timeUseconds := 123456, payloadType := 5 } : Header) "x" 5)
          "create_date" = some (.num ((1700000000 * 1000 + ((100000 + 123456) / 1000 - 100) : Nat)))) := by
  refine ⟨by decide, by decide, ?_⟩
  exact (claim1_timestamp (fun _ => none) 0 0
    { timeSeconds := 1700000000, timeUseconds := 123456, payloadType := 5 } "x"
    (by decide) (by decide)).1

/-- C2 counterexample: a payload containing a bare LF is encoded with the
six-character sequence backslash-backslash-r-backslash-backslash-n inside
the quoted field value (the second `replace` escapes the backslashes the
first one inserted), not with the claimed four characters backslash-r-
backslash-n. -/
theorem claim2_counterexample :
    convertPacket (fun _ => none) 0 0 (({ timeSeconds := 1 } : Header), "a\nb") =
      "hep_0,source=hep create_date=1000i,payload=\"a\\\\r\\\\nb\",payload_size=3i,time_sec=1i,time_usec=0i 1000000000"
    ∧ convertPacket (fun _ => none) 0 0 (({ timeSeconds := 1 } : Header), "a\nb") ≠
      "hep_0,source=hep create_date=1000i,payload=\"a\\r\\nb\",payload_size=3i,time_sec=1i,time_usec=0i 1000000000" := by
  constructor <;> decide

/-- C2 amended: each embedded LF, CRLF or bare CR in a field value is
first replaced by the two-character escapes backslash-r backslash-n, whose
backslashes are then themselves escaped, so the quoted output represents
each line break as the six-character sequence
backslash-backslash-r-backslash-backslash-n. -/
theorem claim2_amended (u v : List Char) (h : u.getLast? ≠ some '\r') :
    (escapeFieldValue ⟨u ++ '\n' :: v⟩).data =
      (escapeFieldValue ⟨u⟩).data ++ ['\\', '\\', 'r', '\\', '\\', 'n'] ++
      (escapeFieldValue ⟨v⟩).data
    ∧ (escapeFieldValue ⟨u ++ '\r' :: '\n' :: v⟩).data =
      (escapeFieldValue ⟨u⟩).data ++ ['\\', '\\', 'r', '\\', '\\', 'n'] ++
      (escapeFieldValue ⟨v⟩).data
    ∧ (v.head? ≠ some '\n' →
      (escapeFieldValue ⟨u ++ '\r' :: v⟩).data =
        (escapeFieldValue ⟨u⟩).data ++ ['\\', '\\', 'r', '\\', '\\', 'n'] ++
        (escapeFieldValue ⟨v⟩).data) := by
  have e1 : ∀ l : List Char, (escapeFieldValue ⟨l⟩).data = escQB (replNL l) :=
    fun l => rfl
  refine ⟨?_, ?_, fun hv => ?_⟩
  · rw [e1, e1, e1, replNL_append u _ h, replNL_lf, escQB_append, escQB_append,
      escQB_escSeq, List.append_assoc]
  · rw [e1, e1, e1, replNL_append u _ h, replNL_crlf, escQB_append, escQB_append,
      escQB_escSeq, List.append_assoc]
  · rw [e1, e1, e1, replNL_append u _ h, replNL_cr _ hv, escQB_append, escQB_append,
      escQB_escSeq, List.append_assoc]

/-- Witness for C2 amended at the field value characters a, LF, b. -/
theorem claim2_amended_witness :
    (['a'].getLast? ≠ some '\r')
    ∧ ((escapeFieldValue ⟨['a'] ++ '\n' :: ['b']⟩).data =
        (escapeFieldValue ⟨['a']⟩).data ++ ['\\', '\\', 'r', '\\', '\\', 'n'] ++
        (escapeFieldValue ⟨['b']⟩).data
      ∧ (escapeFieldValue ⟨['a'] ++ '\r' :: '\n' :: ['b']⟩).data =
        (escapeFieldValue ⟨['a']⟩).data ++ ['\\', '\\', 'r', '\\', '\\', 'n'] ++
        (escapeFieldValue ⟨['b']⟩).data
      ∧ ((['b'] : List Char).head? ≠ some '\n' →
        (escapeFieldValue ⟨['a'] ++ '\r' :: ['b']⟩).data =
          (escapeFieldValue ⟨['a']⟩).data ++ ['\\', '\\', 'r', '\\', '\\', 'n'] ++
          (escapeFieldValue ⟨['b']⟩).data)) :=
  ⟨by decide, claim2_amended ['a'] ['b'] (by decide)⟩

/-- C3 counterexample: a SIP request with From, To and Call-ID headers
produces `sip_method` but neither a `method` field nor `from_user` /
`to_user` fields — the extraction the claim describes does not exist in
the code. -/
theorem claim3_counterexample :
    objGet (extractFields
        (fun _ => some { headers := [("From", .str "<sip:alice@h>"), ("To", .str "<sip:bob@h>"),
                                     ("Call-ID", .str "x1")],
                         method := "INVITE", status := none })
        0 ({} : Header) "INVITE sip:alice@h SIP/2.0" 1) "sip_method" =
      some (.str "INVITE")
    ∧ objGet (extractFields
        (fun _ => some { headers := [("From", .str "<sip:alice@h>"), ("To", .str "<sip:bob@h>"),
                                     ("Call-ID", .str "x1")],
                         method := "INVITE", status := none })
        0 ({} : Header) "INVITE sip:alice@h SIP/2.0" 1) "method" = none
    ∧ objGet (extractFields
        (fun _ => some { headers := [("From", .str "<sip:alice@h>"), ("To", .str "<sip:bob@h>"),
                                     ("Call-ID", .str "x1")],
                         method := "INVITE", status := none })
        0 ({} : Header) "INVITE sip:alice@h SIP/2.0" 1) "from_user" = none
    ∧ objGet (extractFields
        (fun _ => some { headers := [("From", .str "<sip:alice@h>"), ("To", .str "<sip:bob@h>"),
                                     ("Call-ID", .str "x1")],
                         method := "INVITE", status := none })
        0 ({} : Header) "INVITE sip:alice@h SIP/2.0" 1) "to_user" = none := by
  refine ⟨?_, ?_, ?_, ?_⟩ <;> decide

/-- C3 amended: for a SIP payload (`payloadType = 1`) that parses, the
field set contains `sip_method` (requests) respectively a numeric
`sip_status` (responses), but no separate `method` field and no
`from_user` / `to_user` fields are ever set. -/
theorem claim3_amended (getSIP : String → Option SipData) (now : Nat)
    (h : Header) (payload : String) (sd : SipData)
    (hp : payload ≠ "") (hg : getSIP payload = some sd) :
    (sd.method ≠ "" →
      objGet (extractFields getSIP now h payload 1) "sip_method" =
        some (.str sd.method))
    ∧ (∀ n : Nat, sd.status = some n →
      objGet (extractFields getSIP now h payload 1) "sip_status" = some (.num n))
    ∧ objGet (extractFields getSIP now h payload 1) "method" = none
    ∧ objGet (extractFields getSIP now h payload 1) "from_user" = none
    ∧ objGet (extractFields getSIP now h payload 1) "to_user" = none := by
  have hsip : sipStep getSIP payload 1
      (objInsert ([] : Obj FieldValue) "create_date" (.num (getHepTimestamp now h))) =
      sipFields sd (objInsert ([] : Obj FieldValue) "create_date"
        (.num (getHepTimestamp now h))) := by
    unfold sipStep
    rw [if_pos ⟨rfl, hp⟩, hg]
  refine ⟨fun hm => ?_, fun n hn => ?_, ?_, ?_, ?_⟩
  · unfold extractFields
    rw [objGet_timeStep_ne _ _ (by decide) (by decide),
      objGet_payloadStep_ne _ _ (by decide) (by decide), hsip]
    unfold sipFields
    rw [objGet_sipCallIdStep_ne _ _ (by decide),
      objGet_sipStatusStep_ne _ _ (by decide)]
    unfold sipMethodStep
    rw [if_pos hm]
    exact objGet_objInsert_self _ _ _
  · unfold extractFields
    rw [objGet_timeStep_ne _ _ (by decide) (by decide),
      objGet_payloadStep_ne _ _ (by decide) (by decide), hsip]
    unfold sipFields
    rw [objGet_sipCallIdStep_ne _ _ (by decide)]
    unfold sipStatusStep
    rw [hn]
    exact objGet_objInsert_self _ _ _
  · unfold extractFields
    rw [objGet_timeStep_ne _ _ (by decide) (by decide),
      objGet_payloadStep_ne _ _ (by decide) (by decide),
      objGet_sipStep_ne _ _ _ _ (fun x => sipKey_ne x (by decide)) (by decide),
      objGet_objInsert_ne _ _ (by decide)]
    rfl
  · unfold extractFields
    rw [objGet_timeStep_ne _ _ (by decide) (by decide),
      objGet_payloadStep_ne _ _ (by decide) (by decide),
      objGet_sipStep_ne _ _ _ _ (fun x => sipKey_ne x (by decide)) (by decide),
      objGet_objInsert_ne _ _ (by decide)]
    rfl
  · unfold extractFields
    rw [objGet_timeStep_ne _ _ (by decide) (by decide),
      objGet_payloadStep_ne _ _ (by decide) (by decide),
      objGet_sipStep_ne _ _ _ _ (fun x => sipKey_ne x (by decide)) (by decide),
      objGet_objInsert_ne _ _ (by decide)]
    rfl

/-- Witness for C3 amended at a concrete parsed SIP request. -/
theorem claim3_amended_witness :
    (("P" : String) ≠ "")
    ∧ objGet (extractFields (fun _ => some ⟨[("From", .str "f")], "INVITE", none⟩)
        0 ({} : Header) "P" 1) "sip_method" = some (.str "INVITE")
    ∧ objGet (extractFields (fun _ => some ⟨[("From", .str "f")], "INVITE", none⟩)
        0 ({} : Header) "P" 1) "method" = none := by
  have hc := claim3_amended (fun _ => some ⟨[("From", .str "f")], "INVITE", none⟩)
    0 ({} : Header) "P" ⟨[("From", .str "f")], "INVITE", none⟩ (by decide) rfl
  exact ⟨by decide, hc.1 (by decide), hc.2.2.1⟩

/-- C9 counterexample: when the header's `timeSeconds` is zero (JS-falsy),
`extractFields` re-reads the clock for `create_date`, so encoding the very
same record at two different times yields different strings — the encoder
is not a function of the record alone. -/
theorem claim9_counterexample :
    createLineProtocol (fun _ => none) 0
        { protocol_header := {}, create_date := 0, raw := "", type := 0 } ≠
      createLineProtocol (fun _ => none) 1
        { protocol_header := {}, create_date := 0, raw := "", type := 0 } := by
  decide

/-- C9 amended: whenever the record's header has a non-zero `timeSeconds`,
the encoder is a deterministic function of the record alone — encoding the
same record at any two times yields byte-identical strings. -/
theorem claim9_amended (getSIP : String → Option SipData) (hd : HepData)
    (now1 now2 : Nat) (h : hd.protocol_header.timeSeconds ≠ 0) :
    createLineProtocol getSIP now1 hd = createLineProtocol getSIP now2 hd := by
  simp only [createLineProtocol, fieldString, extractFields, getHepTimestamp,
    if_neg h]

/-- Witness for C9 amended at a concrete record and two distinct times. -/
theorem claim9_amended_witness :
    (({ protocol_header := { timeSeconds := 1 }, create_date := 1000, raw := "",
        type := 0 } : HepData).protocol_header.timeSeconds ≠ 0)
    ∧ createLineProtocol (fun _ => none) 3
        { protocol_header := { timeSeconds := 1 }, create_date := 1000, raw := "", type := 0 } =
      createLineProtocol (fun _ => none) 9
        { protocol_header := { timeSeconds := 1 }, create_date := 1000, raw := "", type := 0 } :=
  ⟨by decide, claim9_amended (fun _ => none) _ 3 9 (by decide)⟩

/-- C10 counterexample: a SIP payload whose parsed headers contain a
`Call-ID` header with the empty-string value (JS-falsy) yields a record
with the loop-generated `sip_call-id` field but no `call_id` field — the
dedicated assignment is skipped by its truthiness gate, refuting the
claim for every payload containing a Call-ID header. -/
theorem claim10_counterexample :
    (objGet (extractFields (fun _ => some ⟨[("Call-ID", .str "")], "", none⟩)
        0 ({} : Header) "P" 1) "sip_call-id").isSome
    ∧ objGet (extractFields (fun _ => some ⟨[("Call-ID", .str "")], "", none⟩)
        0 ({} : Header) "P" 1) "call_id" = none := by
  constructor <;> decide

/-- C10 amended: for a SIP payload whose parsed headers contain `Call-ID`
with a JS-truthy value (a non-empty string, or any array), the field set
contains both the loop-generated `sip_call-id` field and a separate
`call_id` field holding the first `Call-ID` value with CR/LF replaced by
the literal escape; an empty-string `Call-ID` value is skipped. -/
theorem claim10_amended (getSIP : String → Option SipData) (now : Nat)
    (h : Header) (payload : String) (sd : SipData) (hv : SipHVal) (s : String)
    (hp : payload ≠ "") (hg : getSIP payload = some sd)
    (hcid : objGet sd.headers "Call-ID" = some hv)
    (htr : sipHValTruthy hv = true) (hf : firstVal hv = some s) :
    objGet (extractFields getSIP now h payload 1) "call_id" =
      some (.str (replNLs s))
    ∧ (objGet (extractFields getSIP now h payload 1) "sip_call-id").isSome := by
  have hsip : sipStep getSIP payload 1
      (objInsert ([] : Obj FieldValue) "create_date" (.num (getHepTimestamp now h))) =
      sipFields sd (objInsert ([] : Obj FieldValue) "create_date"
        (.num (getHepTimestamp now h))) := by
    unfold sipStep
    rw [if_pos ⟨rfl, hp⟩, hg]
  constructor
  · unfold extractFields
    rw [objGet_timeStep_ne _ _ (by decide) (by decide),
      objGet_payloadStep_ne _ _ (by decide) (by decide), hsip]
    unfold sipFields sipCallIdStep
    simp only [hcid]
    rw [if_pos htr, objGet_objInsert_self]
    unfold callIdVal
    rw [hf]
  · unfold extractFields
    apply objGet_timeStep_isSome
    apply objGet_payloadStep_isSome
    rw [hsip]
    unfold sipFields
    apply objGet_sipCallIdStep_isSome
    apply objGet_sipStatusStep_isSome
    apply objGet_sipMethodStep_isSome
    have hmem : ("Call-ID", hv) ∈ sd.headers := objGet_mem _ _ _ hcid
    have := foldSip_mem_isSome sd.headers
      (objInsert ([] : Obj FieldValue) "create_date" (.num (getHepTimestamp now h)))
      "Call-ID" hv hmem
    rwa [show ("sip_" ++ jsToLower "Call-ID" : String) = "sip_call-id" from by decide]
      at this

/-- Witness for C10 amended at a concrete parsed SIP message with a
truthy Call-ID value. -/
theorem claim10_amended_witness :
    (("P" : String) ≠ "")
    ∧ objGet (extractFields (fun _ => some ⟨[("Call-ID", .str "abc")], "", none⟩)
        0 ({} : Header) "P" 1) "call_id" = some (.str (replNLs "abc"))
    ∧ (objGet (extractFields (fun _ => some ⟨[("Call-ID", .str "abc")], "", none⟩)
        0 ({} : Header) "P" 1) "sip_call-id").isSome := by
  have hc := claim10_amended (fun _ => some ⟨[("Call-ID", .str "abc")], "", none⟩)
    0 ({} : Header) "P" ⟨[("Call-ID", .str "abc")], "", none⟩
    (.str "abc") "abc" (by decide) rfl (by decide) (by decide) rfl
  exact ⟨by decide, hc.1, hc.2⟩

/-- C4: `handleData` never consults `maxBufferSize` — with
`batchSize = 5` and `maxBufferSize = 2`, three converted packets leave
the buffer at length 3, strictly beyond the configured cap, with no flush
forced (contradicting the documented forced-flush policy). -/
theorem claim4_maxBufferSize_unenforced :
    ((processLines { batchSize := 5, maxBufferSize := 2 } initialState
        ["a", "b", "c"]).buffer.length = 3)
    ∧ (({ batchSize := 5, maxBufferSize := 2 } : Config).maxBufferSize <
        (processLines { batchSize := 5, maxBufferSize := 2 } initialState
          ["a", "b", "c"]).buffer.length)
    ∧ ((processLines { batchSize := 5, maxBufferSize := 2 } initialState
        ["a", "b", "c"]).flushed = [])
    ∧ ((processLines { batchSize := 5, maxBufferSize := 2 } initialState
        ["a", "b", "c"]).batchesSent = 0) := by
  refine ⟨?_, ?_, ?_, ?_⟩ <;> decide

/-- Processing converted lines that keep the buffer strictly below
`batchSize` only appends to the buffer and never flushes. -/
theorem processLines_no_flush (cfg : Config) (ls : List String) :
    ∀ st : ServerState, (∀ s ∈ ls, s ≠ "") →
      st.buffer.length + ls.length < cfg.batchSize →
      (processLines cfg st ls).buffer = st.buffer ++ ls ∧
      (processLines cfg st ls).flushed = st.flushed := by
  induction ls with
  | nil =>
    intro st _ _
    exact ⟨by simp [processLines], rfl⟩
  | cons l rest ih =>
    intro st hne hlen
    have hl : l ≠ "" := hne l (List.mem_cons_self _ _)
    have hlt : ¬ (cfg.batchSize ≤ (st.buffer ++ [l]).length) := by
      simp only [List.length_append, List.length_singleton]
      simp only [List.length_cons] at hlen
      omega
    have hstep : handleData cfg st (.ok l) =
        { st with
          packetsReceived := st.packetsReceived + 1
          packetsConverted := st.packetsConverted + 1
          buffer := st.buffer ++ [l] } := by
      simp only [handleData, if_pos hl, if_neg hlt]
    have hrec := ih { st with
        packetsReceived := st.packetsReceived + 1
        packetsConverted := st.packetsConverted + 1
        buffer := st.buffer ++ [l] }
      (fun s hs => hne s (List.mem_cons_of_mem _ hs))
      (by simp only [List.length_append, List.length_singleton]
          simp only [List.length_cons] at hlen
          omega)
    have hfold : processLines cfg st (l :: rest) =
        processLines cfg (handleData cfg st (.ok l)) rest := rfl
    rw [hfold, hstep]
    refine ⟨?_, ?_⟩
    · rw [hrec.1]
      simp
    · rw [hrec.2]

/-- C5: with `batchSize = 1000` (the default), the first 999 converted
records cause no flush and stay in the buffer; the 1000th record triggers
exactly one flush whose payload is the newline-join of all 1000 lines,
and the buffer is empty immediately afterwards. -/
theorem claim5_batch_flush (ls : List String) (hlen : ls.length = 1000)
    (hne : ∀ s ∈ ls, s ≠ "") :
    (processLines ({} : Config) initialState (ls.take 999)).flushed = []
    ∧ (processLines ({} : Config) initialState (ls.take 999)).buffer = ls.take 999
    ∧ (processLines ({} : Config) initialState ls).flushed =
        [String.intercalate "\n" ls]
    ∧ (processLines ({} : Config) initialState ls).buffer = [] := by
  have h999 : (ls.take 999).length = 999 := by
    rw [List.length_take, hlen]
    omega
  have hneT : ∀ s ∈ ls.take 999, s ≠ "" :=
    fun s hs => hne s (List.take_subset _ _ hs)
  have hsmall : initialState.buffer.length + (ls.take 999).length <
      ({} : Config).batchSize := by
    rw [h999]
    decide
  have hA := processLines_no_flush ({} : Config) (ls.take 999) initialState hneT hsmall
  have hbuf : (processLines ({} : Config) initialState (ls.take 999)).buffer =
      ls.take 999 := by
    rw [hA.1]
    rfl
  have hfl : (processLines ({} : Config) initialState (ls.take 999)).flushed = [] := by
    rw [hA.2]
    rfl
  obtain ⟨x, hx⟩ : ∃ x, ls.drop 999 = [x] := by
    apply List.length_eq_one.mp
    rw [List.length_drop, hlen]
  have hsplit : ls = ls.take 999 ++ [x] := by
    rw [← hx, List.take_append_drop]
  have hxne : x ≠ "" := by
    apply hne
    rw [hsplit]
    exact List.mem_append_right _ (List.mem_singleton_self _)
  have hproc : processLines ({} : Config) initialState ls =
      handleData ({} : Config) (processLines ({} : Config) initialState (ls.take 999))
        (.ok x) := by
    conv_lhs => rw [hsplit]
    simp [processLines, List.foldl_append]
  have hfull : ({} : Config).batchSize ≤
      ((processLines ({} : Config) initialState (ls.take 999)).buffer ++ [x]).length := by
    rw [hbuf]
    simp [h999]
  have hnonempty : ¬ ((processLines ({} : Config) initialState (ls.take 999)).buffer
      ++ [x]).isEmpty := by
    rw [hbuf]
    simp [List.isEmpty_iff]
  refine ⟨hfl, hbuf, ?_, ?_⟩
  · rw [hproc]
    simp only [handleData, if_pos hxne, if_pos hfull, flushState,
      if_neg hnonempty]
    rw [hfl, hbuf, ← hsplit]
    rfl
  · rw [hproc]
    simp only [handleData, if_pos hxne, if_pos hfull, flushState,
      if_neg hnonempty]

/-- Witness for C5 at a concrete list of 1000 nonempty lines. -/
theorem claim5_batch_flush_witness :
    (processLines ({} : Config) initialState ((List.replicate 1000 "x").take 999)).flushed = []
    ∧ (processLines ({} : Config) initialState ((List.replicate 1000 "x").take 999)).buffer =
        (List.replicate 1000 "x").take 999
    ∧ (processLines ({} : Config) initialState (List.replicate 1000 "x")).flushed =
        [String.intercalate "\n" (List.replicate 1000 "x")]
    ∧ (processLines ({} : Config) initialState (List.replicate 1000 "x")).buffer = [] :=
  claim5_batch_flush (List.replicate 1000 "x") (by rw [List.length_replicate])
    (fun s hs => by rw [List.eq_of_mem_replicate hs]; decide)

end Hep
